import Mathlib

/-!
Shallow embedding of the TeXSwarm collaborative-editor core
(`src/crdt/engine.rs`, `src/crdt/operations.rs`, `src/crdt/document.rs`,
`src/crdt/document_branch_manager.rs`, `src/network/engine.rs`,
`src/git/repository.rs`, `src/git/sync.rs`), together with theorems settling
the specification claims about it.

Modelling conventions:
* Rust `Uuid` is modelled as `String` (an opaque identifier; only equality is used).
* Rust `usize` is modelled as `Nat` (offsets never overflow in the claims considered).
* `Vec<u8>` payloads produced by `serde_json::to_vec` are modelled at the
  JSON-value level (`Json` below): one value per byte string.
* The `diamond_types` op-log is modelled as the list of primitive edits appended
  to it, with a branch materialized by replaying the edits in log order; this is
  the observable behaviour of `OpLog::add_insert` / `add_delete_without_content`
  followed by `Branch::merge` to the local tip for the linear histories produced
  by `CrdtEngine` (every mutation extends the single local frontier).
  Out-of-range offsets are clamped by `List.take`/`List.drop`.
-/

namespace TeXSwarm

/-- Model of Rust `std::ops::Range<usize>` as used in `DocumentOperation`.
The Rust field `end` is a Lean keyword and is renamed `stop`. -/
structure URange where
  start : Nat
  stop : Nat
deriving DecidableEq, Repr

/-- Model of `DocumentOperation` from `src/crdt/operations.rs`. -/
inductive DocumentOperation where
  | Insert (document_id : String) (user_id : String) (position : Nat) (content : String)
  | Delete (document_id : String) (user_id : String) (range : URange)
  | Replace (document_id : String) (user_id : String) (range : URange) (content : String)
deriving DecidableEq, Repr

/-- JSON values, the codomain of the modelled `serde_json` codec. -/
inductive Json where
  | str (s : String)
  | num (n : Nat)
  | obj (fields : List (String × Json))

/-- Model of the derived `Serialize` for `Range<usize>`: `{"start":..,"end":..}`. -/
def encodeRange (r : URange) : Json :=
  .obj [("start", .num r.start), ("end", .num r.stop)]

/-- Model of `OperationEncoder::encode_operation` (`serde_json::to_vec` with the
derived `Serialize` for `DocumentOperation`): the externally tagged representation,
fields in declaration order. -/
def encode_operation : DocumentOperation → Json
  | .Insert document_id user_id position content =>
      .obj [("Insert", .obj [("document_id", .str document_id),
                             ("user_id", .str user_id),
                             ("position", .num position),
                             ("content", .str content)])]
  | .Delete document_id user_id range =>
      .obj [("Delete", .obj [("document_id", .str document_id),
                             ("user_id", .str user_id),
                             ("range", encodeRange range)])]
  | .Replace document_id user_id range content =>
      .obj [("Replace", .obj [("document_id", .str document_id),
                              ("user_id", .str user_id),
                              ("range", encodeRange range),
                              ("content", .str content)])]

/-- Look a field up in a JSON object (first occurrence, as the derived
deserializer sees it on well-formed input; unknown fields are ignored,
matching serde's default). -/
def getField (j : Json) (name : String) : Except String Json :=
  match j with
  | .obj fields =>
      match fields.lookup name with
      | some v => .ok v
      | none => .error ("missing field " ++ name)
  | _ => .error "expected object"

/-- Expect a JSON string. -/
def asStr : Json → Except String String
  | .str s => .ok s
  | _ => .error "expected string"

/-- Expect a JSON number. -/
def asNum : Json → Except String Nat
  | .num n => .ok n
  | _ => .error "expected number"

/-- Model of the derived `Deserialize` for `Range<usize>`. -/
def decodeRange (j : Json) : Except String URange := do
  let s ← asNum (← getField j "start")
  let e ← asNum (← getField j "end")
  .ok { start := s, stop := e }

/-- Model of `OperationEncoder::decode_operation` (`serde_json::from_slice` with
the derived `Deserialize` for `DocumentOperation`): expects a single-key object
whose key is the variant tag. -/
def decode_operation (j : Json) : Except String DocumentOperation :=
  match j with
  | .obj [(tag, payload)] =>
      if tag = "Insert" then do
        let document_id ← asStr (← getField payload "document_id")
        let user_id ← asStr (← getField payload "user_id")
        let position ← asNum (← getField payload "position")
        let content ← asStr (← getField payload "content")
        .ok (.Insert document_id user_id position content)
      else if tag = "Delete" then do
        let document_id ← asStr (← getField payload "document_id")
        let user_id ← asStr (← getField payload "user_id")
        let range ← decodeRange (← getField payload "range")
        .ok (.Delete document_id user_id range)
      else if tag = "Replace" then do
        let document_id ← asStr (← getField payload "document_id")
        let user_id ← asStr (← getField payload "user_id")
        let range ← decodeRange (← getField payload "range")
        let content ← asStr (← getField payload "content")
        .ok (.Replace document_id user_id range content)
      else .error ("unknown variant " ++ tag)
  | _ => .error "expected externally tagged enum"

/-- Model of `AppError` from `src/utils/errors.rs` (payloads simplified to the
formatted message strings; `Uuid` payloads are id strings). Note the enum has
no `BadRange` variant. -/
inductive AppError where
  | CrdtError (msg : String)
  | NetworkError (msg : String)
  | GitError (msg : String)
  | ApiError (msg : String)
  | ProtocolError (msg : String)
  | ConfigError (msg : String)
  | IoError (msg : String)
  | JsonError (msg : String)
  | InvalidUuid (msg : String)
  | RepositoryNotFound (id : String)
  | DocumentNotFound (id : String)
  | Unknown (msg : String)
deriving DecidableEq, Repr

instance {ε α : Type} [DecidableEq ε] [DecidableEq α] : DecidableEq (Except ε α) := fun a b =>
  match a, b with
  | .error e1, .error e2 =>
      if h : e1 = e2 then .isTrue (congrArg Except.error h)
      else .isFalse (fun hh => h (Except.error.inj hh))
  | .ok a1, .ok a2 =>
      if h : a1 = a2 then .isTrue (congrArg Except.ok h)
      else .isFalse (fun hh => h (Except.ok.inj hh))
  | .error _, .ok _ => .isFalse (fun hh => Except.noConfusion hh)
  | .ok _, .error _ => .isFalse (fun hh => Except.noConfusion hh)

/-- Model of `Document` from `src/crdt/document.rs`. The `HashSet` of
collaborators is modelled as a list; `chrono` timestamps as `Nat`. -/
structure Document where
  id : String
  title : String
  owner : String
  collaborators : List String
  repository_url : Option String
  created_at : Nat
  updated_at : Nat
deriving DecidableEq, Repr

/-- Model of `Document::new` (the wall-clock `now` is passed explicitly). -/
def Document.new (id title owner : String) (now : Nat) : Document :=
  { id := id, title := title, owner := owner, collaborators := [],
    repository_url := none, created_at := now, updated_at := now }

/-- One primitive edit recorded in a `diamond_types` op-log: the agent index and
the positional edit, as produced by `OpLog::add_insert` and
`OpLog::add_delete_without_content`. -/
inductive PrimOp where
  | ins (agent : Nat) (pos : Nat) (content : String)
  | del (agent : Nat) (start : Nat) (stop : Nat)
deriving DecidableEq, Repr

/-- Model of the `diamond_types` `OpLog` for the linear histories produced by
`CrdtEngine`: the registered agents (index = agent id) and the primitive edits
in append order. -/
structure OpLog where
  agents : List String
  ops : List PrimOp
deriving DecidableEq, Repr

/-- Model of `OpLog::get_or_create_agent_id`: the index of `user` among the
registered agents, registering it if absent. -/
def OpLog.get_or_create_agent_id (l : OpLog) (user : String) : Nat × OpLog :=
  match l.agents.indexOf? user with
  | some i => (i, l)
  | none => (l.agents.length, { l with agents := l.agents ++ [user] })

/-- Apply one primitive edit to materialized content (character offsets).
Out-of-range offsets are clamped by `take`/`drop`. -/
def applyPrim (c : List Char) : PrimOp → List Char
  | .ins _ pos s => c.take pos ++ s.data ++ c.drop pos
  | .del _ start stop => c.take start ++ c.drop (max start stop)

/-- Model of `Branch::merge` to the local tip after `newOps` were appended to
the op-log: replay the new edits, in log order, on the cached content. -/
def mergeToTip (branch : List Char) (newOps : List PrimOp) : List Char :=
  newOps.foldl applyPrim branch

/-- The primitive edits a `DocumentOperation` appends under agent `a`
(the shared `match` body of `apply_local_operation` and
`apply_remote_operation` in `src/crdt/engine.rs`):
Insert appends one insert, Delete one delete, Replace a delete
immediately followed by an insert at `range.start`. -/
def opPrims (a : Nat) : DocumentOperation → List PrimOp
  | .Insert _ _ position content => [.ins a position content]
  | .Delete _ _ range => [.del a range.start range.stop]
  | .Replace _ _ range content => [.del a range.start range.stop, .ins a range.start content]

/-- Append a `DocumentOperation` to an op-log, returning the new log and the
primitive edits that were appended. -/
def OpLog.applyOp (l : OpLog) (op : DocumentOperation) : OpLog × List PrimOp :=
  let user := match op with
    | .Insert _ user_id _ _ => user_id
    | .Delete _ user_id _ => user_id
    | .Replace _ user_id _ _ => user_id
  let p := l.get_or_create_agent_id user
  let prims := opPrims p.1 op
  ({ p.2 with ops := p.2.ops ++ prims }, prims)

/-- Insert or replace a key in an association-list map (model of
`DashMap::insert`). -/
def mapInsert {α : Type} (m : List (String × α)) (k : String) (v : α) :
    List (String × α) :=
  (k, v) :: m.filter (fun p => ¬ p.1 = k)

/-- Model of `CrdtEngine` from `src/crdt/engine.rs`: the three maps keyed by
document id. A branch is its materialized content (its version is the log tip
throughout, since every engine mutation re-merges to the tip). -/
structure CrdtEngine where
  documents : List (String × Document)
  oplogs : List (String × OpLog)
  branches : List (String × List Char)
deriving DecidableEq, Repr

/-- Model of `CrdtEngine::new`. -/
def CrdtEngine.new : CrdtEngine :=
  { documents := [], oplogs := [], branches := [] }

/-- Model of `CrdtEngine::create_document`. The random `Uuid::new_v4()` and the
wall clock are passed explicitly as `freshId` and `now`. -/
def CrdtEngine.create_document (e : CrdtEngine) (freshId : String) (now : Nat)
    (title owner : String) : String × CrdtEngine :=
  let doc := Document.new freshId title owner now
  (freshId,
   { documents := mapInsert e.documents freshId doc,
     oplogs := mapInsert e.oplogs freshId { agents := [], ops := [] },
     branches := mapInsert e.branches freshId [] })

/-- Model of `CrdtEngine::get_document`. -/
def CrdtEngine.get_document (e : CrdtEngine) (doc_id : String) :
    Except AppError Document :=
  match e.documents.lookup doc_id with
  | some d => .ok d
  | none => .error (.CrdtError ("Document not found: " ++ doc_id))

/-- Model of `CrdtEngine::apply_local_operation`: look up op-log and branch,
append the operation to the op-log (no offset validation of any kind), merge
the branch to the tip, and return the encoded operation for broadcast. -/
def CrdtEngine.apply_local_operation (e : CrdtEngine) (doc_id : String)
    (operation : DocumentOperation) : Except AppError (CrdtEngine × Json) :=
  match e.oplogs.lookup doc_id with
  | none => .error (.CrdtError ("Document not found: " ++ doc_id))
  | some l =>
    match e.branches.lookup doc_id with
    | none => .error (.CrdtError ("Document branch not found: " ++ doc_id))
    | some b =>
      let (l2, prims) := l.applyOp operation
      let b2 := mergeToTip b prims
      .ok ({ e with oplogs := mapInsert e.oplogs doc_id l2,
                    branches := mapInsert e.branches doc_id b2 },
           encode_operation operation)

/-- Model of `CrdtEngine::apply_remote_operation`: look up op-log and branch,
decode the payload, then append and merge exactly as the local path does
(the decoded positional edit is re-executed at the current local tip). -/
def CrdtEngine.apply_remote_operation (e : CrdtEngine) (doc_id : String)
    (encoded_operation : Json) : Except AppError CrdtEngine :=
  match e.oplogs.lookup doc_id with
  | none => .error (.CrdtError ("Document not found: " ++ doc_id))
  | some l =>
    match e.branches.lookup doc_id with
    | none => .error (.CrdtError ("Document branch not found: " ++ doc_id))
    | some b =>
      match decode_operation encoded_operation with
      | .error msg => .error (.JsonError msg)
      | .ok operation =>
        let (l2, prims) := l.applyOp operation
        let b2 := mergeToTip b prims
        .ok { e with oplogs := mapInsert e.oplogs doc_id l2,
                     branches := mapInsert e.branches doc_id b2 }

/-- Model of `CrdtEngine::get_document_content`. -/
def CrdtEngine.get_document_content (e : CrdtEngine) (doc_id : String) :
    Except AppError String :=
  match e.branches.lookup doc_id with
  | some b => .ok (String.mk b)
  | none => .error (.CrdtError ("Document branch not found: " ++ doc_id))

/-- Absorb a list of encoded remote operations in order. -/
def applyRemoteAll (e : CrdtEngine) (doc_id : String) (msgs : List Json) :
    Except AppError CrdtEngine :=
  msgs.foldlM (fun acc m => acc.apply_remote_operation doc_id m) e

/-- A fresh engine holding one empty document `"d"` (created through
`create_document`), the common starting state of the scenario theorems. -/
def seedEngine : CrdtEngine :=
  (CrdtEngine.new.create_document "d" 0 "T" "u0").2

/-- Claim C8: the operation codec round-trips: for every `DocumentOperation`,
`decode_operation (encode_operation op)` succeeds and returns `op`. -/
theorem C8_operation_codec_round_trip (op : DocumentOperation) :
    decode_operation (encode_operation op) = .ok op := by
  cases op <;> rfl

/-- Claim C1 (falsified by the code): two engines that hold the same document
and absorb, via `apply_remote_operation`, the same two operation payloads
produced by `apply_local_operation` — `Insert{pos 0, "a"}` by `u1` and
`Insert{pos 0, "b"}` by `u2` — in the two different orders end with different
contents (`"ba"` versus `"ab"`): `apply_remote_operation` re-executes the
decoded positional edit at the current local tip, so absorption order changes
the result and the engines do not converge. -/
theorem C1_convergence_fails :
    ((seedEngine.apply_local_operation "d" (.Insert "d" "u1" 0 "a")).map Prod.snd
        = .ok (encode_operation (.Insert "d" "u1" 0 "a")))
    ∧ ((seedEngine.apply_local_operation "d" (.Insert "d" "u2" 0 "b")).map Prod.snd
        = .ok (encode_operation (.Insert "d" "u2" 0 "b")))
    ∧ ((applyRemoteAll seedEngine "d"
          [encode_operation (.Insert "d" "u1" 0 "a"),
           encode_operation (.Insert "d" "u2" 0 "b")]).bind
        (fun e => e.get_document_content "d") = .ok "ba")
    ∧ ((applyRemoteAll seedEngine "d"
          [encode_operation (.Insert "d" "u2" 0 "b"),
           encode_operation (.Insert "d" "u1" 0 "a")]).bind
        (fun e => e.get_document_content "d") = .ok "ab")
    ∧ ("ba" : String) ≠ "ab" := by
  refine ⟨rfl, rfl, rfl, rfl, ?_⟩
  decide

/-- Claim C2 (falsified by the code): re-applying the same encoded remote
operation duplicates its effect. Applying the bytes of `Insert{pos 0, "a"}`
once to the seed engine yields content `"a"`; applying the identical bytes
twice yields `"aa"`. -/
theorem C2_idempotence_fails :
    ((applyRemoteAll seedEngine "d"
        [encode_operation (.Insert "d" "u1" 0 "a")]).bind
      (fun e => e.get_document_content "d") = .ok "a")
    ∧ ((applyRemoteAll seedEngine "d"
        [encode_operation (.Insert "d" "u1" 0 "a"),
         encode_operation (.Insert "d" "u1" 0 "a")]).bind
      (fun e => e.get_document_content "d") = .ok "aa")
    ∧ ("a" : String) ≠ "aa" := by
  refine ⟨rfl, rfl, ?_⟩
  decide

/-- Claim C3 (falsified by the code): `apply_local_operation` performs no
offset validation. On the seed document of length 0, `Insert{pos 5, "x"}`
violates the data-model invariant `position ≤ current_length`, yet the call
does not fail with any error (`AppError` has no `BadRange` variant at all) and
the op-log grows by one entry. -/
theorem C3_no_bad_range_rejection :
    (seedEngine.apply_local_operation "d" (.Insert "d" "u1" 5 "x")).isOk = true
    ∧ ((seedEngine.apply_local_operation "d" (.Insert "d" "u1" 5 "x")).map
        (fun p => (p.1.oplogs.lookup "d").map (fun l => l.ops.length))
        = .ok (some 1))
    ∧ ((seedEngine.oplogs.lookup "d").map (fun l => l.ops.length) = some 0) := by
  refine ⟨rfl, ?_, rfl⟩
  decide

/-- Model of `DocumentBranchManager::ensure_document_exists`
(`src/crdt/document_branch_manager.rs`): if `get_document` succeeds return
`true`; on a `DocumentNotFound` or `CrdtError` failure call `create_document`
— which allocates a fresh random id, modelled by `freshId` — with the given
title under owner `"system"` and return `false`; other errors propagate.
(The pending-documents side table is dropped: it is only ever written here.) -/
def ensure_document_exists (e : CrdtEngine) (freshId : String) (now : Nat)
    (document_id : String) (title : String) : Except AppError (Bool × CrdtEngine) :=
  match e.get_document document_id with
  | .ok _ => .ok (true, e)
  | .error err =>
    match err with
    | .DocumentNotFound _ | .CrdtError _ =>
        .ok (false, (e.create_document freshId now title "system").2)
    | _ => .error err

/-- Claim C4 (falsified by the code): on an engine without document `"doc-a"`,
`ensure_document_exists` returns `Ok(false)` but the document it creates gets
the fresh random id (here `"doc-b"`), not the requested one: afterwards
`get_document "doc-a"` still fails, while a document `"doc-b"` with the given
title and owner `"system"` exists. -/
theorem C4_ensure_document_exists_misses_requested_id :
    ((ensure_document_exists CrdtEngine.new "doc-b" 0 "doc-a" "T").map
        (fun p => (p.1,
                   (p.2.get_document "doc-a").isOk,
                   (p.2.get_document "doc-b").map (fun doc => (doc.title, doc.owner))))
      = .ok (false, false, .ok ("T", "system"))) := by
  decide

/-- An engine whose document `"d"` has content `"Hello!"`, produced by applying
a local insert to the seed engine (scenario S3 set-up). -/
def helloEngine : CrdtEngine :=
  match seedEngine.apply_local_operation "d" (.Insert "d" "u0" 0 "Hello!") with
  | .ok p => p.1
  | .error _ => CrdtEngine.new

/-- Claim C5: `Replace{range, content}` applied through
`apply_local_operation` appends, under the one agent obtained for the
operation's user, a delete of the range immediately followed by an insert of
the content at `range.start`, and the branch is the delete-then-insert of the
old content; on a document with content `"Hello!"`, `Replace{0..5, "World"}`
yields `"World!"`. -/
theorem C5_replace_is_delete_then_insert (e : CrdtEngine) (d u : String)
    (r : URange) (s : String) (l : OpLog) (b : List Char)
    (h1 : e.oplogs.lookup d = some l) (h2 : e.branches.lookup d = some b) :
    (e.apply_local_operation d (.Replace d u r s) =
      .ok ({ e with
              oplogs := mapInsert e.oplogs d
                { agents := (l.get_or_create_agent_id u).2.agents,
                  ops := (l.get_or_create_agent_id u).2.ops ++
                    [.del (l.get_or_create_agent_id u).1 r.start r.stop,
                     .ins (l.get_or_create_agent_id u).1 r.start s] },
              branches := mapInsert e.branches d
                (applyPrim (applyPrim b (.del (l.get_or_create_agent_id u).1 r.start r.stop))
                  (.ins (l.get_or_create_agent_id u).1 r.start s)) },
            encode_operation (.Replace d u r s)))
    ∧ ((helloEngine.apply_local_operation "d"
          (.Replace "d" "u1" { start := 0, stop := 5 } "World")).bind
        (fun p => p.1.get_document_content "d") = .ok "World!") := by
  constructor
  · simp only [CrdtEngine.apply_local_operation, h1, h2, OpLog.applyOp, opPrims, mergeToTip,
      List.foldl]
  · decide

/-- Witness for C5 at a concrete engine: the seed engine holds document `"d"`
with an empty op-log and empty branch, and the conclusion evaluates there. -/
theorem C5_replace_is_delete_then_insert_witness :
    seedEngine.oplogs.lookup "d" = some { agents := [], ops := [] }
    ∧ seedEngine.branches.lookup "d" = some []
    ∧ ((seedEngine.apply_local_operation "d"
          (.Replace "d" "u9" { start := 0, stop := 0 } "hi")).map
        (fun p => p.1.get_document_content "d") = .ok (.ok "hi")) := by
  refine ⟨by decide, by decide, ?_⟩
  have h := C5_replace_is_delete_then_insert seedEngine "d" "u9"
    { start := 0, stop := 0 } "hi" { agents := [], ops := [] } [] (by decide) (by decide)
  rw [h.1]
  decide

/-- The response half of the protocol message `NetworkMessage::JoinResponse`
(`src/network/protocol.rs`) as built by the dispatcher. -/
structure JoinResponseData where
  document_id : String
  success : Bool
  error_message : Option String
  document_content : Option String
deriving DecidableEq, Repr

/-- Model of the `JoinRequest` arm of `NetworkEngine::start_event_loop`
(`src/network/engine.rs` lines 221-246): read the document content (errors
become `None`), add the requesting peer to the document's subscriber list if
not already present (unconditionally, known document or not), and respond with
`success = true` and no error message. -/
def handle_join_request (e : CrdtEngine) (subscribers : List String)
    (document_id : String) (source : String) : JoinResponseData × List String :=
  let content := match e.get_document_content document_id with
    | .ok c => some c
    | .error _ => none
  let subs2 := if subscribers.contains source then subscribers
               else subscribers ++ [source]
  ({ document_id := document_id, success := true, error_message := none,
     document_content := content }, subs2)

/-- Claim C6 as stated is false at a concrete input: for a `JoinRequest` on a
document unknown to the engine, the response's `error_message` is `none`, not
`"unknown"`, and the requesting peer is nevertheless added to the subscriber
list. -/
theorem C6_join_response_counterexample :
    ¬ (((handle_join_request CrdtEngine.new [] "doc-x" "peer-1").1.error_message
          = some "unknown")
       ∧ ((handle_join_request CrdtEngine.new [] "doc-x" "peer-1").2 = [])) := by
  decide

/-- Claim C6 amended: the dispatcher answers every `JoinRequest` with
`success = true` and `error_message = none`; `document_content` is the
document's current content when the engine knows the document and `none`
otherwise; and the requesting peer is added to the subscriber list in both
cases (deduplicated), never removed. -/
theorem C6_join_response_amended (e : CrdtEngine) (subscribers : List String)
    (document_id source : String) :
    ((handle_join_request e subscribers document_id source).1.success = true)
    ∧ ((handle_join_request e subscribers document_id source).1.error_message = none)
    ∧ ((handle_join_request e subscribers document_id source).1.document_id = document_id)
    ∧ ((handle_join_request e subscribers document_id source).1.document_content
        = (e.get_document_content document_id).toOption)
    ∧ (source ∈ (handle_join_request e subscribers document_id source).2)
    ∧ ((handle_join_request e subscribers document_id source).2 ⊆ subscribers ++ [source])
    ∧ (subscribers ⊆ (handle_join_request e subscribers document_id source).2) := by
  refine ⟨rfl, rfl, rfl, ?_, ?_, ?_, ?_⟩
  · unfold handle_join_request
    cases h : e.get_document_content document_id <;> simp [h, Except.toOption]
  · by_cases hm : source ∈ subscribers <;>
      simp [handle_join_request, hm]
  · by_cases hm : source ∈ subscribers <;>
      simp [handle_join_request, hm, List.subset_append_left]
  · by_cases hm : source ∈ subscribers <;>
      simp [handle_join_request, hm, List.subset_append_left]

/-- A per-document repository working tree: the files (name to content) and
the commit messages in commit order. Network effects (push) and git plumbing
(index, tree, signature) are not observed by the claims and are not modelled. -/
structure RepoState where
  files : List (String × String)
  commits : List String
deriving DecidableEq, Repr

/-- Model of `RepositoryManager::save_document` (`src/git/repository.rs`):
write `content` to `filename` in the working tree, then stage and commit it
with `message`. -/
def save_document (repo : RepoState) (content filename message : String) : RepoState :=
  { files := mapInsert repo.files filename content,
    commits := repo.commits ++ [message] }

/-- Model of `title.replace(" ", "_")` (single-character pattern, so the
charwise map is exact). -/
def replaceSpaces (s : String) : String :=
  String.mk (s.data.map (fun c => if c = ' ' then '_' else c))

/-- Model of `GitSync::sync_document` (`src/git/sync.rs` lines 77-112): look
the document up, require its repository URL, read the current content, save it
to the file named `"{title.replace(' ', '_')}.tex"` with commit message
`"Update document {title}"`, then update `bootstrap.txt` from the document's
peers (`get_document_peers` always returns the empty list, so the bootstrap
content is empty) with commit message `"Update bootstrap peers"`.
The repository handle obtained from `clone_or_open` is passed in as `repo`. -/
def GitSync.sync_document (e : CrdtEngine) (repo : RepoState)
    (document_id : String) : Except AppError RepoState :=
  match e.documents.lookup document_id with
  | none => .error (.CrdtError ("Document not found: " ++ document_id))
  | some doc =>
    match doc.repository_url with
    | none => .error (.GitError ("Document " ++ document_id ++ " has no repository URL"))
    | some _ =>
      match e.get_document_content document_id with
      | .error err => .error err
      | .ok content =>
        let repo1 := save_document repo content (replaceSpaces doc.title ++ ".tex")
          ("Update document " ++ doc.title)
        .ok (save_document repo1 "" "bootstrap.txt" "Update bootstrap peers")

/-- A concrete engine state for the sync theorem: one document `"d"` titled
`"My Doc"` with a repository URL and materialized content `"X"`. -/
def syncEngine : CrdtEngine :=
  { documents := [("d", { id := "d", title := "My Doc", owner := "u1",
                          collaborators := [], repository_url := some "https://example.org/r.git",
                          created_at := 0, updated_at := 0 })],
    oplogs := [("d", { agents := ["u1"], ops := [.ins 0 0 "X"] })],
    branches := [("d", "X".data)] }

/-- Claim C7 (falsified by the code): syncing the document titled `"My Doc"`
writes its content to `"My_Doc.tex"` — the filename is derived from the title,
`format!("{}.tex", doc.title.replace(" ", "_"))` — and no file named
`"document.tex"` is written, while the commit message
`"Update document My Doc"` does match the claim. -/
theorem C7_sync_document_filename_is_title_based :
    ((GitSync.sync_document syncEngine { files := [], commits := [] } "d").map
        (fun r => (r.files.lookup "document.tex",
                   r.files.lookup "My_Doc.tex",
                   r.commits))
      = .ok (none, some "X", ["Update document My Doc", "Update bootstrap peers"])) := by
  decide

/-- Model of Rust `str::split(sep)` on characters: the pieces between
occurrences of `sep`, in order; never empty (splitting the empty string gives
one empty piece, as in Rust). -/
def splitOnChar (c : Char) : List Char → List (List Char)
  | [] => [[]]
  | x :: xs =>
    match splitOnChar c xs with
    | [] => [[]]
    | h :: t => if x = c then [] :: h :: t else (x :: h) :: t

/-- Model of `Vec::join(sep)` / `format!` interleaving on characters. -/
def joinWith (c : Char) : List (List Char) → List Char
  | [] => []
  | [r] => r
  | r :: rs => r ++ c :: joinWith c rs

/-- Model of Rust `char::is_whitespace`: the Unicode `White_Space` property —
U+0009..U+000D, U+0020, U+0085, U+00A0, U+1680, U+2000..U+200A, U+2028,
U+2029, U+202F, U+205F and U+3000. -/
def rustIsWhitespace (c : Char) : Bool :=
  decide ((0x09 ≤ c.val ∧ c.val ≤ 0x0D) ∨ c.val = 0x20 ∨ c.val = 0x85 ∨ c.val = 0xA0 ∨
    c.val = 0x1680 ∨ (0x2000 ≤ c.val ∧ c.val ≤ 0x200A) ∨ c.val = 0x2028 ∨
    c.val = 0x2029 ∨ c.val = 0x202F ∨ c.val = 0x205F ∨ c.val = 0x3000)

/-- Model of Rust `str::trim` on characters: drop the Unicode `White_Space`
characters at both ends. -/
def trimChars (s : List Char) : List Char :=
  ((s.dropWhile rustIsWhitespace).reverse.dropWhile rustIsWhitespace).reverse

/-- Drop the one trailing empty piece a final separator produces. -/
def dropLastEmpty : List (List Char) → List (List Char)
  | [] => []
  | [x] => if x = [] then [] else [x]
  | x :: xs => x :: dropLastEmpty xs

/-- Model of Rust `str::lines()`: split on `'\n'` without a piece for a final
newline. (A piece's trailing `'\r'` is left in place here; the only caller
trims each line immediately afterwards, which subsumes it.) -/
def rustLines (s : List Char) : List (List Char) :=
  dropLastEmpty (splitOnChar '\n' s)

/-- Model of the record formatting in `GitSync::update_bootstrap_file`:
`format!("{},{}", p.peer_id, p.addresses.join(";"))`. -/
def formatPeerRecord (peer_id : List Char) (addresses : List (List Char)) : List Char :=
  peer_id ++ ',' :: joinWith ';' addresses

/-- Model of the file content `RepositoryManager::create_bootstrap_file`
writes: the records joined by newlines (`peers.join("\n")`). -/
def create_bootstrap_file_content (peers : List (List Char)) : List Char :=
  joinWith '\n' peers

/-- Model of `RepositoryManager::read_bootstrap_file` over the repository's
working tree (filename to content): a missing file yields `Ok` with no lines;
otherwise the lines, each trimmed, with empty lines dropped. -/
def read_bootstrap_file (files : List (String × List Char)) (filename : String) :
    Except AppError (List (List Char)) :=
  match files.lookup filename with
  | none => .ok []
  | some content =>
      .ok (((rustLines content).map trimChars).filter (fun l => !l.isEmpty))

/-- Model of the parsing loop of `GitSync::get_bootstrap_peers`: keep the
lines that split on `','` into exactly two parts; the second part splits on
`';'` into the addresses. -/
def parseBootstrapPeers (peers : List (List Char)) :
    List (List Char × List (List Char)) :=
  peers.filterMap (fun peer =>
    match splitOnChar ',' peer with
    | [a, b] => some (a, splitOnChar ';' b)
    | _ => none)

/-- Model of `GitSync::get_bootstrap_peers` on an opened repository: read
`bootstrap.txt` and parse the peer records. -/
def get_bootstrap_peers (files : List (String × List Char)) :
    Except AppError (List (List Char × List (List Char))) :=
  (read_bootstrap_file files "bootstrap.txt").map parseBootstrapPeers

theorem splitOnChar_ne_nil (c : Char) (s : List Char) : splitOnChar c s ≠ [] := by
  cases s with
  | nil => simp [splitOnChar]
  | cons x xs =>
    simp only [splitOnChar]
    cases splitOnChar c xs with
    | nil => simp
    | cons h t => by_cases hx : x = c <;> simp [hx]

theorem split_no_sep (c : Char) (r : List Char) (h : c ∉ r) :
    splitOnChar c r = [r] := by
  induction r with
  | nil => rfl
  | cons x xs ih =>
    simp only [List.mem_cons, not_or] at h
    have hx : ¬ x = c := fun hh => h.1 (hh ▸ rfl)
    simp [splitOnChar, ih h.2, hx]

theorem split_append_cons (c : Char) (r t : List Char) (h : c ∉ r) :
    splitOnChar c (r ++ c :: t) = r :: splitOnChar c t := by
  induction r with
  | nil =>
    simp only [List.nil_append, splitOnChar]
    obtain ⟨h1, t1, heq⟩ := List.exists_cons_of_ne_nil (splitOnChar_ne_nil c t)
    rw [heq]
    simp
  | cons x xs ih =>
    simp only [List.mem_cons, not_or] at h
    have hx : ¬ x = c := fun hh => h.1 (hh ▸ rfl)
    simp only [List.cons_append, splitOnChar, List.append_eq, ih h.2, hx, if_false]

theorem split_join (c : Char) (rs : List (List Char)) (h0 : rs ≠ [])
    (h : ∀ r ∈ rs, c ∉ r) : splitOnChar c (joinWith c rs) = rs := by
  induction rs with
  | nil => exact absurd rfl h0
  | cons r rs ih =>
    cases rs with
    | nil => exact split_no_sep c r (h r (by simp))
    | cons r2 rs2 =>
      have hj : joinWith c (r :: r2 :: rs2) = r ++ c :: joinWith c (r2 :: rs2) := rfl
      rw [hj, split_append_cons c r _ (h r (by simp)),
        ih (by simp) (fun x hx => h x (by simp [hx]))]

theorem not_mem_join (c c2 : Char) (rs : List (List Char)) (hne : c2 ≠ c)
    (h : ∀ r ∈ rs, c2 ∉ r) : c2 ∉ joinWith c rs := by
  induction rs with
  | nil => simp [joinWith]
  | cons r rs ih =>
    cases rs with
    | nil => exact h r (by simp)
    | cons r2 rs2 =>
      have hj : joinWith c (r :: r2 :: rs2) = r ++ c :: joinWith c (r2 :: rs2) := rfl
      rw [hj]
      simp only [List.mem_append, List.mem_cons, not_or]
      exact ⟨h r (by simp), hne, ih (fun x hx => h x (by simp [hx]))⟩

theorem dropLastEmpty_of_ne (ls : List (List Char)) (h : ∀ x ∈ ls, x ≠ []) :
    dropLastEmpty ls = ls := by
  induction ls with
  | nil => rfl
  | cons x xs ih =>
    cases xs with
    | nil => simp [dropLastEmpty, h x (by simp)]
    | cons y ys =>
      have : dropLastEmpty (x :: y :: ys) = x :: dropLastEmpty (y :: ys) := rfl
      rw [this, ih (fun z hz => h z (by simp [hz]))]

theorem formatPeerRecord_ne_nil (peer_id : List Char) (addresses : List (List Char)) :
    formatPeerRecord peer_id addresses ≠ [] := by
  simp [formatPeerRecord]

theorem formatPeerRecord_split (peer_id : List Char) (addresses : List (List Char))
    (hidc : ',' ∉ peer_id) (haddr : ∀ a ∈ addresses, ',' ∉ a) :
    splitOnChar ',' (formatPeerRecord peer_id addresses)
      = [peer_id, joinWith ';' addresses] := by
  rw [formatPeerRecord, split_append_cons _ _ _ hidc,
    split_no_sep _ _ (not_mem_join ';' ',' addresses (by decide) haddr)]

theorem formatPeerRecord_no_newline (peer_id : List Char) (addresses : List (List Char))
    (hid : '\n' ∉ peer_id) (haddr : ∀ a ∈ addresses, '\n' ∉ a) :
    '\n' ∉ formatPeerRecord peer_id addresses := by
  simp only [formatPeerRecord, List.mem_append, List.mem_cons, not_or]
  exact ⟨hid, by decide, not_mem_join ';' '\n' addresses (by decide) haddr⟩

theorem parse_map_format (rs : List (List Char × List (List Char)))
    (hcomma : ∀ p ∈ rs, ',' ∉ p.1 ∧ ∀ a ∈ p.2, ',' ∉ a)
    (hsemi : ∀ p ∈ rs, p.2 ≠ [] ∧ ∀ a ∈ p.2, ';' ∉ a) :
    parseBootstrapPeers (rs.map (fun p => formatPeerRecord p.1 p.2)) = rs := by
  induction rs with
  | nil => rfl
  | cons p ps ih =>
    have h1 : splitOnChar ',' (formatPeerRecord p.1 p.2) = [p.1, joinWith ';' p.2] :=
      formatPeerRecord_split p.1 p.2 (hcomma p (by simp)).1 (hcomma p (by simp)).2
    have h2 : splitOnChar ';' (joinWith ';' p.2) = p.2 :=
      split_join ';' p.2 (hsemi p (by simp)).1 (hsemi p (by simp)).2
    simp only [List.map_cons, parseBootstrapPeers, List.filterMap_cons, h1, h2]
    rw [← parseBootstrapPeers,
      ih (fun q hq => hcomma q (by simp [hq])) (fun q hq => hsemi q (by simp [hq]))]

/-- Claim C9 as stated is false at a concrete input: the single peer record
`"P1,a "` (non-empty peer id `"P1"`, single address `"a "` containing no
newline, comma or semicolon) written through `create_bootstrap_file` reads
back as `("P1", ["a"])` — `read_bootstrap_file` trims each line, so the
address loses its trailing space. -/
theorem C9_bootstrap_round_trip_counterexample :
    (get_bootstrap_peers
        [("bootstrap.txt", create_bootstrap_file_content
            [formatPeerRecord "P1".data ["a ".data]])]
      = .ok [("P1".data, ["a".data])])
    ∧ ¬ (get_bootstrap_peers
          [("bootstrap.txt", create_bootstrap_file_content
              [formatPeerRecord "P1".data ["a ".data]])]
        = .ok [("P1".data, ["a ".data])]) := by
  constructor
  · decide
  · decide

/-- Claim C9 amended: the bootstrap round-trip holds for records whose peer id
is non-empty and whose peer id and addresses contain no newline, comma or
semicolon, provided additionally that each formatted record is unchanged by
whitespace trimming (no leading whitespace on the peer id and no trailing
whitespace on the last address): writing the records with
`create_bootstrap_file` and re-reading with `get_bootstrap_peers` yields
exactly the list of `(peer_id, addresses)` pairs in order. -/
theorem C9_bootstrap_round_trip_amended (rs : List (List Char × List (List Char)))
    (hid : ∀ p ∈ rs, p.1 ≠ [] ∧ '\n' ∉ p.1 ∧ ',' ∉ p.1 ∧ ';' ∉ p.1)
    (haddr : ∀ p ∈ rs, p.2 ≠ [] ∧ ∀ a ∈ p.2, '\n' ∉ a ∧ ',' ∉ a ∧ ';' ∉ a)
    (htrim : ∀ p ∈ rs, trimChars (formatPeerRecord p.1 p.2) = formatPeerRecord p.1 p.2) :
    get_bootstrap_peers
      [("bootstrap.txt", create_bootstrap_file_content
          (rs.map (fun p => formatPeerRecord p.1 p.2)))] = .ok rs := by
  have hlines : rustLines (joinWith '\n' (rs.map (fun p => formatPeerRecord p.1 p.2)))
      = rs.map (fun p => formatPeerRecord p.1 p.2) := by
    cases rs with
    | nil => rfl
    | cons p ps =>
      rw [rustLines, split_join '\n' _ (by simp)
        (fun r hr => by
          obtain ⟨q, hq, rfl⟩ := List.mem_map.mp hr
          exact formatPeerRecord_no_newline q.1 q.2 ((hid q hq).2).1
            (fun a ha => ((haddr q hq).2 a ha).1)),
        dropLastEmpty_of_ne _ (fun r hr => by
          obtain ⟨q, hq, rfl⟩ := List.mem_map.mp hr
          exact formatPeerRecord_ne_nil q.1 q.2)]
  have htrims : ((rs.map (fun p => formatPeerRecord p.1 p.2)).map trimChars)
      = rs.map (fun p => formatPeerRecord p.1 p.2) := by
    rw [List.map_map]
    refine List.map_congr_left (fun q hq => htrim q hq)
  have hfilter : ((rs.map (fun p => formatPeerRecord p.1 p.2)).filter
        (fun l => !l.isEmpty)) = rs.map (fun p => formatPeerRecord p.1 p.2) := by
    refine List.filter_eq_self.mpr (fun r hr => by
      obtain ⟨q, hq, rfl⟩ := List.mem_map.mp hr
      simpa using formatPeerRecord_ne_nil q.1 q.2)
  have hparse : parseBootstrapPeers (rs.map (fun p => formatPeerRecord p.1 p.2)) = rs :=
    parse_map_format rs
      (fun q hq => ⟨((hid q hq).2).2.1, fun a ha => ((haddr q hq).2 a ha).2.1⟩)
      (fun q hq => ⟨(haddr q hq).1, fun a ha => ((haddr q hq).2 a ha).2.2⟩)
  unfold get_bootstrap_peers read_bootstrap_file create_bootstrap_file_content
  simp only [List.lookup, beq_self_eq_true, hlines, htrims, hfilter, Except.map]
  rw [hparse]

/-- Witness for C9 (the S6 scenario): records `P1@addr1` and `P2@addr2;addr3`
satisfy the amended hypotheses and read back exactly. -/
theorem C9_bootstrap_round_trip_witness :
    get_bootstrap_peers
      [("bootstrap.txt", create_bootstrap_file_content
          ([("P1".data, ["addr1".data]), ("P2".data, ["addr2".data, "addr3".data])].map
            (fun p => formatPeerRecord p.1 p.2)))]
      = .ok [("P1".data, ["addr1".data]), ("P2".data, ["addr2".data, "addr3".data])] :=
  C9_bootstrap_round_trip_amended
    [("P1".data, ["addr1".data]), ("P2".data, ["addr2".data, "addr3".data])]
    (by decide) (by decide) (by decide)

/-- Claim C10: a missing bootstrap file is not an error: when the repository's
working tree has no `bootstrap.txt`, `read_bootstrap_file` returns `Ok` with
no lines, and `get_bootstrap_peers` consequently returns `Ok` with no peers. -/
theorem C10_missing_bootstrap_file_is_ok (files : List (String × List Char))
    (h : files.lookup "bootstrap.txt" = none) :
    read_bootstrap_file files "bootstrap.txt" = .ok []
    ∧ get_bootstrap_peers files = .ok [] := by
  have h1 : read_bootstrap_file files "bootstrap.txt" = .ok [] := by
    unfold read_bootstrap_file
    rw [h]
  exact ⟨h1, by unfold get_bootstrap_peers; rw [h1]; rfl⟩

/-- Witness for C10: a repository tree holding only `document.tex` has no
`bootstrap.txt`, and both reads return `Ok` with nothing. -/
theorem C10_missing_bootstrap_file_is_ok_witness :
    ([("document.tex", "X".data)].lookup "bootstrap.txt" = none)
    ∧ (read_bootstrap_file [("document.tex", "X".data)] "bootstrap.txt" = .ok []
       ∧ get_bootstrap_peers [("document.tex", "X".data)] = .ok []) :=
  ⟨by decide, C10_missing_bootstrap_file_is_ok [("document.tex", "X".data)] (by decide)⟩

end TeXSwarm
